import Mathlib

/-!
# Verification of the Fibonacci spiral art generator

Shallow embedding of `server/generator.py` (functions `generate_spiral_art`
and `draw_polar_ellipses`).  Python floats are modelled as exact rationals
(`ℚ`); decimal literals such as `6.103` and `0.61803` denote the exact
rationals `6103/1000` and `61803/100000`.  Trigonometric placement is
modelled over the reals.  Python's `int()` conversion (truncation toward
zero) is modelled by `pyInt`.
-/

namespace SpiralArt

/-- Fixed layer counts: Center 1, then Fibonacci sequence
(`LAYERS`, generator.py line 13). -/
def LAYERS : List ℕ := [1, 8, 13, 21, 34, 55, 89, 144]

/-- One entry of the layer schedule: the arguments `count`, `radius` and
`y_offset` that `generate_spiral_art` passes to `draw_polar_ellipses`
for one layer. -/
structure LayerSpec where
  count : ℕ
  radius : ℚ
  yOffset : ℚ
deriving DecidableEq, Repr

/-- The layer-schedule loop of `generate_spiral_art` (generator.py
lines 37–57).  For each remaining count it emits a `LayerSpec` with
`radius = current_size / 2` and `yOffset = y_position`, then updates
`next_size = current_size * 0.61803` and
`y_position = y_position - current_size / 2 - next_size * 0.61803 - next_size / 2`. -/
def scheduleAux : List ℕ → ℚ → ℚ → List LayerSpec
  | [], _, _ => []
  | c :: rest, current_size, y_position =>
    { count := c, radius := current_size / 2, yOffset := y_position } ::
      scheduleAux rest (current_size * 0.61803)
        (y_position - current_size / 2 - (current_size * 0.61803) * 0.61803
          - (current_size * 0.61803) / 2)

/-- The full layer schedule of `generate_spiral_art`: `base_size = size / 6.103`,
`current_size` starts at `base_size`, `y_position` starts at `0.0`
(generator.py lines 38–44). -/
def layerSchedule (size : ℚ) : List LayerSpec :=
  scheduleAux LAYERS (size / 6.103) 0

/-- Python's `int()` conversion applied to a float: truncation toward zero. -/
def pyInt (q : ℚ) : ℤ :=
  if 0 ≤ q then ⌊q⌋ else ⌈q⌉

/-- Per-item stamp sizing of `draw_polar_ellipses` (generator.py lines 98–110):
`w = h = 2 * radius`; `ar = source_image.width / source_image.height`;
if `ar > 1` then `h = w / ar` else `w = h * ar`; finally
`new_width = max(1, int(w))`, `new_height = max(1, int(h))`.
Returns `none` when the source height is zero, modelling the
`ZeroDivisionError` raised by `W / H`. -/
def itemDims (W H : ℕ) (radius : ℚ) : Option (ℤ × ℤ) :=
  if H = 0 then none
  else
    let w : ℚ := 2 * radius
    let h : ℚ := 2 * radius
    let ar : ℚ := (W : ℚ) / (H : ℚ)
    let wh : ℚ × ℚ := if 1 < ar then (w, w / ar) else (h * ar, h)
    some (max 1 (pyInt wh.1), max 1 (pyInt wh.2))

/-- The skip check of `draw_polar_ellipses` (generator.py lines 112–113):
`if new_width < 1 or new_height < 1: continue`. -/
def itemSkipped (d : ℤ × ℤ) : Bool :=
  d.1 < 1 || d.2 < 1

/-- The per-layer loop of `draw_polar_ellipses` (generator.py lines 81–126),
restricted to its observable stamp sizes: for `i` from 1 to `count` the item
dimensions are computed (they do not depend on `i`) and the item is skipped
when the skip check fires, otherwise one stamp of those dimensions is
composited.  Returns `none` when `count = 0` (the `angle_step = 360.0 / count`
division raises) or when the source height is zero. -/
def layerStamps (W H : ℕ) (count : ℕ) (radius : ℚ) : Option (List (ℤ × ℤ)) :=
  if count = 0 then none
  else
    match itemDims W H radius with
    | none => none
    | some d =>
      some ((List.range' 1 count).filterMap fun _ =>
        if itemSkipped d then none else some d)

/-- Result of a `generate_spiral_art` call.  `canvasError` models the
`ValueError` raised by `Image.new` for a negative canvas size, before the layer
schedule is computed; `placementError` models an exception raised inside
`draw_polar_ellipses`, after the layer schedule (carried as payload) was
computed; `ok` carries, for each layer, its `LayerSpec` and the dimensions of
the stamps composited for it. -/
inductive RenderResult where
  | canvasError : RenderResult
  | placementError : List LayerSpec → RenderResult
  | ok : List (LayerSpec × List (ℤ × ℤ)) → RenderResult
deriving DecidableEq, Repr

/-- Whether a render completed without raising. -/
def RenderResult.isOk : RenderResult → Bool
  | .ok _ => true
  | _ => false

/-- Runs `draw_polar_ellipses` for each schedule entry in order. -/
def renderLayers (W H : ℕ) : List LayerSpec → Option (List (LayerSpec × List (ℤ × ℤ)))
  | [] => some []
  | spec :: rest =>
    match layerStamps W H spec.count spec.radius, renderLayers W H rest with
    | some s, some more => some ((spec, s) :: more)
    | _, _ => none

/-- `generate_spiral_art` (generator.py lines 16–59), abstracted to its
observable geometry: the source image enters only through its width `W` and
height `H`; the result records the layer schedule and the stamp dimensions
composited per layer.  There is no input validation in the code: a negative
`size` fails only at canvas allocation (`Image.new`), and a zero source height
fails only inside the first layer's placement. -/
def generate_spiral_art (W H : ℕ) (size : ℤ) : RenderResult :=
  if size < 0 then .canvasError
  else
    match renderLayers W H (layerSchedule (size : ℚ)) with
    | none => .placementError (layerSchedule (size : ℚ))
    | some layers => .ok layers

/-- Placement angle in degrees of item `i` of a layer with `count` items
(generator.py lines 81–87): `angle_step = 360.0 / count`;
`angle_deg = 90 - i * angle_step`. -/
def angle_deg (count i : ℕ) : ℚ :=
  90 - i * (360 / count)

/-- Position of item `i` relative to the canvas center (generator.py
lines 87–92): `angle_rad = radians(angle_deg)`;
`x = cos(angle_rad) * y_offset`; `y = sin(angle_rad) * y_offset`. -/
noncomputable def itemPos (count : ℕ) (y_offset : ℝ) (i : ℕ) : ℝ × ℝ :=
  let angle_rad : ℝ := (90 - i * (360 / count)) * Real.pi / 180
  (Real.cos angle_rad * y_offset, Real.sin angle_rad * y_offset)

/-- The point each stamp is centered on: canvas center plus the polar
position of the item (generator.py lines 122–123, the `center_x + x` and
`center_y + y` summands). -/
noncomputable def itemCenter (center_x center_y : ℤ) (count : ℕ)
    (y_offset : ℝ) (i : ℕ) : ℝ × ℝ :=
  ((center_x : ℝ) + (itemPos count y_offset i).1,
   (center_y : ℝ) + (itemPos count y_offset i).2)

/-- Paste-origin computation of `draw_polar_ellipses` (generator.py
line 122): `paste_x = int(center_x + x - rotated.width // 2)`, where
`rotated.width // 2` is Python floor division on a nonnegative integer
and the outer `int()` truncates toward zero.  The same formula computes
`paste_y` from `center_y`, `y` and `rotated.height` (line 123). -/
def paste_x (center_x : ℤ) (x : ℚ) (rotatedWidth : ℕ) : ℤ :=
  pyInt ((center_x : ℚ) + x - ((rotatedWidth / 2 : ℕ) : ℚ))

/-- One RGBA pixel with channels in `[0, 255]`, modelled over `ℚ`. -/
structure Pixel where
  r : ℚ
  g : ℚ
  b : ℚ
  a : ℚ
deriving DecidableEq, Repr

/-- Modelled from the spec: the blending performed by
`canvas.paste(rotated, (paste_x, paste_y), rotated)` (generator.py
line 126) happens inside the Pillow library, whose code is not part of
this repository.  Per the spec, the stamp's own alpha channel is the
mask and blending is standard over compositing: each output channel is
`source * (alpha / 255) + dest * (1 - alpha / 255)`. -/
def pastePixel (dst src : Pixel) : Pixel :=
  let m : ℚ := src.a / 255
  { r := src.r * m + dst.r * (1 - m)
    g := src.g * m + dst.g * (1 - m)
    b := src.b * m + dst.b * (1 - m)
    a := src.a * m + dst.a * (1 - m) }

/-- C1: for every positive canvas size the layer schedule has exactly 8
layers with count sequence [1, 8, 13, 21, 34, 55, 89, 144]; the first layer
has radius `(size / 6.103) / 2` and y-offset `0`; and consecutive layers are
related by `current_size` (which is `2 * radius`) being multiplied by
`0.61803` while the y-offset decreases by
`current_size / 2 + next_size * 0.61803 + next_size / 2`. -/
theorem layer_schedule_correct (size : ℚ) (hsize : 0 < size) :
    (layerSchedule size).length = 8 ∧
    (layerSchedule size).map LayerSpec.count = LAYERS ∧
    (layerSchedule size).head?.map LayerSpec.radius = some (size / 6.103 / 2) ∧
    (layerSchedule size).head?.map LayerSpec.yOffset = some 0 ∧
    List.Chain' (fun a b =>
      2 * b.radius = (2 * a.radius) * 0.61803 ∧
      b.yOffset = a.yOffset - (2 * a.radius) / 2 - (2 * b.radius) * 0.61803
        - (2 * b.radius) / 2) (layerSchedule size) := by
  refine ⟨rfl, rfl, rfl, rfl, ?_⟩
  simp only [layerSchedule, scheduleAux, LAYERS, List.chain'_cons, List.chain'_singleton]
  norm_num
  constructor <;> try constructor
  all_goals ring_nf
  all_goals try trivial

/-- Witness for `layer_schedule_correct` at the reference size 1024. -/
theorem layer_schedule_correct_witness :
    (layerSchedule 1024).map LayerSpec.count = LAYERS :=
  (layer_schedule_correct 1024 (by norm_num)).2.1

/-- With a nonzero source height, `itemDims` never fails and both computed
dimensions are at least 1 (they are clamped with `max(1, ·)`). -/
lemma itemDims_some_of_height_pos (W H : ℕ) (radius : ℚ) (hH : 1 ≤ H) :
    ∃ d : ℤ × ℤ, itemDims W H radius = some d ∧ 1 ≤ d.1 ∧ 1 ≤ d.2 := by
  have h0 : H ≠ 0 := by omega
  unfold itemDims
  rw [if_neg h0]
  exact ⟨_, rfl, le_max_left _ _, le_max_left _ _⟩

/-- A `filterMap` that keeps every element with a constant value is a
`replicate`. -/
lemma filterMap_const_some {α β : Type} (d : β) :
    ∀ l : List α, l.filterMap (fun _ => some d) = List.replicate l.length d := by
  intro l
  induction l with
  | nil => rfl
  | cons a l ih => simp [List.filterMap_cons, ih, List.replicate_succ]

/-- Any dimensions returned by `itemDims` are at least 1 in both components. -/
lemma itemDims_ge_one (W H : ℕ) (radius : ℚ) (d : ℤ × ℤ)
    (hd : itemDims W H radius = some d) : 1 ≤ d.1 ∧ 1 ≤ d.2 := by
  unfold itemDims at hd
  split at hd
  · exact absurd hd (by simp)
  · exact Option.some_injective _ hd ▸ ⟨le_max_left _ _, le_max_left _ _⟩

/-- The skip check never fires on dimensions that are at least 1. -/
lemma itemSkipped_eq_false (d : ℤ × ℤ) (h1 : 1 ≤ d.1) (h2 : 1 ≤ d.2) :
    itemSkipped d = false := by
  simp [itemSkipped]
  omega

/-- When `itemDims` yields `d`, the layer with `count ≥ 1` items composites
exactly `count` stamps of dimensions `d`. -/
lemma layerStamps_eq_replicate (W H count : ℕ) (radius : ℚ) (d : ℤ × ℤ)
    (hc : 1 ≤ count) (hd : itemDims W H radius = some d) :
    layerStamps W H count radius = some (List.replicate count d) := by
  have hskip : itemSkipped d = false :=
    itemSkipped_eq_false d (itemDims_ge_one W H radius d hd).1
      (itemDims_ge_one W H radius d hd).2
  have h0 : count ≠ 0 := by omega
  unfold layerStamps
  rw [if_neg h0, hd]
  simp only [hskip, Bool.false_eq_true, ite_false, filterMap_const_some,
    List.length_range']

/-- With a radius of 0 the computed dimensions are clamped up to `(1, 1)`. -/
lemma itemDims_radius_zero (W H : ℕ) (hH : 1 ≤ H) :
    itemDims W H 0 = some (1, 1) := by
  have h0 : H ≠ 0 := by omega
  simp only [itemDims, h0, if_false]
  split <;> simp [pyInt]

/-- Every entry of the layer schedule has a positive count. -/
lemma layerSchedule_count_pos (size : ℚ) :
    ∀ s ∈ layerSchedule size, 1 ≤ s.count := by
  simp [layerSchedule, scheduleAux, LAYERS]

/-- With a valid source height every layer succeeds, so the whole placement
pass succeeds. -/
lemma renderLayers_isSome (W H : ℕ) (hH : 1 ≤ H) :
    ∀ specs : List LayerSpec, (∀ s ∈ specs, 1 ≤ s.count) →
      ∃ layers, renderLayers W H specs = some layers := by
  intro specs
  induction specs with
  | nil => exact fun _ => ⟨[], rfl⟩
  | cons spec rest ih =>
    intro hc
    obtain ⟨d, hd, h1, h2⟩ := itemDims_some_of_height_pos W H spec.radius hH
    have hs := layerStamps_eq_replicate W H spec.count spec.radius d
      (hc spec (by simp)) hd
    obtain ⟨more, hmore⟩ := ih fun s hs => hc s (by simp [hs])
    exact ⟨(spec, List.replicate spec.count d) :: more,
      by simp [renderLayers, hs, hmore]⟩

/-- C4: the render is deterministic — it is a pure function of the source
image dimensions and the canvas size, so equal inputs give equal outputs. -/
theorem render_deterministic (W₁ H₁ : ℕ) (size₁ : ℤ) (W₂ H₂ : ℕ) (size₂ : ℤ)
    (hW : W₁ = W₂) (hH : H₁ = H₂) (hsize : size₁ = size₂) :
    generate_spiral_art W₁ H₁ size₁ = generate_spiral_art W₂ H₂ size₂ := by
  rw [hW, hH, hsize]

/-- Witness for `render_deterministic` at the reference input. -/
theorem render_deterministic_witness :
    generate_spiral_art 100 100 1024 = generate_spiral_art 100 100 1024 :=
  render_deterministic 100 100 1024 100 100 1024 rfl rfl rfl

/-- C10: the skip branch of `draw_polar_ellipses` is unreachable — computed
dimensions are clamped to a minimum of 1 before the less-than-1 check, so the
check never fires, every successful layer composites exactly `count` stamps,
and a degenerate radius of 0 yields `(1, 1)`-pixel stamps rather than skips. -/
theorem skip_branch_unreachable (W H : ℕ) (radius : ℚ) (count : ℕ) :
    (∀ d, itemDims W H radius = some d → itemSkipped d = false) ∧
    (∀ l, layerStamps W H count radius = some l → l.length = count) ∧
    (1 ≤ H → itemDims W H 0 = some (1, 1)) := by
  refine ⟨?_, ?_, itemDims_radius_zero W H⟩
  · intro d hd
    exact itemSkipped_eq_false d (itemDims_ge_one W H radius d hd).1
      (itemDims_ge_one W H radius d hd).2
  · intro l hl
    rcases Nat.eq_zero_or_pos count with h0 | h0
    · subst h0
      unfold layerStamps at hl
      exact absurd hl (by simp)
    · have h0' : count ≠ 0 := by omega
      rcases hdims : itemDims W H radius with _ | d
      · unfold layerStamps at hl
        rw [if_neg h0', hdims] at hl
        exact Option.noConfusion hl
      · rw [layerStamps_eq_replicate W H count radius d h0 hdims] at hl
        rw [← Option.some_injective _ hl]
        simp

/-- Witness for `skip_branch_unreachable` at concrete dimensions. -/
theorem skip_branch_unreachable_witness :
    itemDims 3 2 0 = some (1, 1) :=
  (skip_branch_unreachable 3 2 0 1).2.2 (by norm_num)

/-- Counterexample to C2: a layer with radius 0 and count 1 produces one
`(1, 1)`-pixel stamp, not zero stamps. -/
theorem radius_zero_layer_not_empty :
    layerStamps 2 2 1 0 = some [(1, 1)] ∧
    some [((1 : ℤ), (1 : ℤ))] ≠ some ([] : List (ℤ × ℤ)) := by
  refine ⟨?_, by simp⟩
  have h := layerStamps_eq_replicate 2 2 1 0 (1, 1) (by norm_num)
    (itemDims_radius_zero 2 2 (by norm_num))
  simpa using h

/-- C2 (amended): a layer whose radius computes to 0 raises no error and is
not skipped — it composites `count` stamps of the minimum `1 × 1` pixel size
(the dimensions are clamped to a minimum of 1 before the skip check, so the
check never fires) — and rendering of all layers proceeds normally. -/
theorem degenerate_radius_layer (W H count : ℕ)
    (hH : 1 ≤ H) (hcount : 1 ≤ count) :
    layerStamps W H count 0 = some (List.replicate count (1, 1)) ∧
    (generate_spiral_art W H 0).isOk = true := by
  constructor
  · exact layerStamps_eq_replicate W H count 0 (1, 1) hcount
      (itemDims_radius_zero W H hH)
  · obtain ⟨layers, hl⟩ := renderLayers_isSome W H hH (layerSchedule (0 : ℚ))
      (layerSchedule_count_pos _)
    norm_num [generate_spiral_art, hl, RenderResult.isOk]

/-- Witness for `degenerate_radius_layer` at concrete input. -/
theorem degenerate_radius_layer_witness :
    layerStamps 2 3 2 0 = some (List.replicate 2 (1, 1)) :=
  (degenerate_radius_layer 2 3 2 (by norm_num) (by norm_num)).1

/-- Counterexample to C3: calling the generator with `size = 0` (which is
`≤ 0`) is not rejected at all — the render runs to completion. -/
theorem size_zero_not_rejected :
    (generate_spiral_art 2 2 0).isOk = true ∧ ((0 : ℤ) ≤ 0) := by
  constructor
  · obtain ⟨layers, hl⟩ := renderLayers_isSome 2 2 (by norm_num)
      (layerSchedule (0 : ℚ)) (layerSchedule_count_pos _)
    norm_num [generate_spiral_art, hl, RenderResult.isOk]
  · exact le_refl 0

/-- C3 (amended): the generator performs no input validation of its own.  A
negative `size` fails only at canvas allocation (before the layer schedule is
computed); `size = 0` is accepted and renders to completion; a zero source
height fails only inside the first layer's placement, after the layer
schedule has been computed (the failure carries the computed schedule); a
positive source height never causes a rejection. -/
theorem invalid_dimension_behavior (W H : ℕ) (size : ℤ) :
    (size < 0 → generate_spiral_art W H size = .canvasError) ∧
    (0 ≤ size → H = 0 →
      generate_spiral_art W H size = .placementError (layerSchedule (size : ℚ))) ∧
    (0 ≤ size → 1 ≤ H → (generate_spiral_art W H size).isOk = true) := by
  refine ⟨fun h => by simp [generate_spiral_art, h], ?_, ?_⟩
  · intro hs hH
    subst hH
    have : renderLayers W 0 (layerSchedule (size : ℚ)) = none := by
      simp [layerSchedule, scheduleAux, LAYERS, renderLayers, layerStamps, itemDims]
    simp [generate_spiral_art, not_lt.2 hs, this]
  · intro hs hH
    obtain ⟨layers, hl⟩ := renderLayers_isSome W H hH (layerSchedule (size : ℚ))
      (layerSchedule_count_pos _)
    simp [generate_spiral_art, not_lt.2 hs, hl, RenderResult.isOk]

/-- Witness for `invalid_dimension_behavior`: a negative size fails at canvas
allocation. -/
theorem invalid_dimension_behavior_witness :
    generate_spiral_art 2 2 (-5) = .canvasError :=
  (invalid_dimension_behavior 2 2 (-5)).1 (by norm_num)

/-- C5: for the first layer (`count = 1`, `y_offset = 0`) of any render with
positive size, the single stamp's computed center coincides with the canvas
center `(size // 2, size // 2)`, for every item index and regardless of the
source image's dimensions. -/
theorem center_layer_invariant (size : ℕ) (hsize : 0 < size) (i : ℕ) :
    itemCenter ((size / 2 : ℕ) : ℤ) ((size / 2 : ℕ) : ℤ) 1 0 i =
      (((size / 2 : ℕ) : ℝ), ((size / 2 : ℕ) : ℝ)) := by
  simp only [itemCenter, itemPos]
  norm_num
  norm_cast

/-- Witness for `center_layer_invariant` at the reference size 1024. -/
theorem center_layer_invariant_witness :
    itemCenter ((1024 / 2 : ℕ) : ℤ) ((1024 / 2 : ℕ) : ℤ) 1 0 1 =
      (((1024 / 2 : ℕ) : ℝ), ((1024 / 2 : ℕ) : ℝ)) :=
  center_layer_invariant 1024 (by norm_num) 1

/-- C6: for a layer with `count = N ≥ 1`, the placement angle of item `i` is
`90 - i * (360 / N)` degrees, consecutive items are spaced by exactly
`360 / N` degrees, and the `N` equal steps sum to the full `360` degrees. -/
theorem angular_coverage (N : ℕ) (hN : 1 ≤ N) :
    (∀ i : ℕ, angle_deg N i = 90 - (i : ℚ) * (360 / (N : ℚ))) ∧
    (∀ i : ℕ, angle_deg N i - angle_deg N (i + 1) = 360 / (N : ℚ)) ∧
    (N : ℚ) * (360 / (N : ℚ)) = 360 := by
  have hN0 : (N : ℚ) ≠ 0 := Nat.cast_ne_zero.mpr (by omega)
  refine ⟨fun i => rfl, fun i => ?_, ?_⟩
  · simp only [angle_deg]
    push_cast
    ring
  · field_simp

/-- Witness for `angular_coverage` at `N = 8`, `i = 3`. -/
theorem angular_coverage_witness :
    angle_deg 8 3 - angle_deg 8 (3 + 1) = 360 / ((8 : ℕ) : ℚ) :=
  (angular_coverage 8 (by norm_num)).2.1 3

/-- C8: compositing a stamp pixel over a canvas pixel uses the stamp's own
alpha as the mask with over semantics — alpha 0 leaves the canvas pixel
unchanged, alpha 255 replaces it with the stamp pixel, and in general each
channel moves from the canvas value toward the stamp value in exact
proportion `alpha / 255`. -/
theorem alpha_compositing_over (dst src : Pixel) :
    (src.a = 0 → pastePixel dst src = dst) ∧
    (src.a = 255 → pastePixel dst src = src) ∧
    ((pastePixel dst src).r - dst.r = (src.r - dst.r) * (src.a / 255) ∧
     (pastePixel dst src).g - dst.g = (src.g - dst.g) * (src.a / 255) ∧
     (pastePixel dst src).b - dst.b = (src.b - dst.b) * (src.a / 255)) := by
  obtain ⟨dr, dg, db, da⟩ := dst
  obtain ⟨sr, sg, sb, sa⟩ := src
  refine ⟨fun h => ?_, fun h => ?_, ?_, ?_, ?_⟩ <;>
    simp_all only [pastePixel, Pixel.mk.injEq] <;>
    norm_num <;>
    ring

/-- Witness for `alpha_compositing_over`: a fully transparent stamp pixel
leaves the canvas pixel unchanged. -/
theorem alpha_compositing_over_witness :
    pastePixel ⟨10, 20, 30, 255⟩ ⟨1, 2, 3, 0⟩ = ⟨10, 20, 30, 255⟩ :=
  (alpha_compositing_over ⟨10, 20, 30, 255⟩ ⟨1, 2, 3, 0⟩).1 rfl

/-- Counterexample to C9: the paste origin is computed with Python `int()`,
which truncates toward zero; at `center_x = 512`, `x = -2089/4` and a rotated
width of 3 the exact value is `-45/4 = -11.25`, the code yields `-11`, but
integer flooring would yield `-12`. -/
theorem paste_origin_not_floor :
    paste_x 512 (-2089/4) 3 ≠ ⌊(512 : ℚ) + (-2089/4) - ((3 / 2 : ℕ) : ℚ)⌋ := by
  have h1 : paste_x 512 (-2089/4) 3 = -11 := by
    have hv : ((512 : ℤ) : ℚ) + (-2089/4) - ((3 / 2 : ℕ) : ℚ) = -(45/4) := by
      norm_num
    rw [paste_x, hv]
    rw [pyInt, if_neg (by norm_num), Int.ceil_neg]
    norm_num
  have h2 : ⌊(512 : ℚ) + (-2089/4) - ((3 / 2 : ℕ) : ℚ)⌋ = -12 := by
    norm_num
  rw [h1, h2]
  norm_num

/-- C9 (amended): the paste origin is `int(center_x + x - rotatedWidth // 2)`
where `//` is integer floor division and `int()` truncates toward zero: the
result is the floor of `center_x + x - rotatedWidth // 2` whenever that value
is nonnegative and its ceiling when it is negative; in either case the
rotated stamp's anchor `paste_x + rotatedWidth // 2` lands within strictly
less than one pixel of the computed polar coordinate `center_x + x`. -/
theorem paste_origin_semantics (center_x : ℤ) (x : ℚ) (rotatedWidth : ℕ) :
    (0 ≤ (center_x : ℚ) + x - ((rotatedWidth / 2 : ℕ) : ℚ) →
      paste_x center_x x rotatedWidth =
        ⌊(center_x : ℚ) + x - ((rotatedWidth / 2 : ℕ) : ℚ)⌋) ∧
    ((center_x : ℚ) + x - ((rotatedWidth / 2 : ℕ) : ℚ) < 0 →
      paste_x center_x x rotatedWidth =
        ⌈(center_x : ℚ) + x - ((rotatedWidth / 2 : ℕ) : ℚ)⌉) ∧
    |((paste_x center_x x rotatedWidth : ℤ) : ℚ) + ((rotatedWidth / 2 : ℕ) : ℚ)
        - ((center_x : ℚ) + x)| < 1 := by
  set v : ℚ := (center_x : ℚ) + x - ((rotatedWidth / 2 : ℕ) : ℚ) with hv
  refine ⟨fun h => ?_, fun h => ?_, ?_⟩
  · rw [paste_x, ← hv, pyInt, if_pos h]
  · rw [paste_x, ← hv, pyInt, if_neg (not_le.mpr h)]
  · have hval : ((paste_x center_x x rotatedWidth : ℤ) : ℚ)
        + ((rotatedWidth / 2 : ℕ) : ℚ) - ((center_x : ℚ) + x)
        = ((pyInt v : ℤ) : ℚ) - v := by
      rw [paste_x, ← hv]
      ring
    rw [hval, pyInt]
    split
    · rw [abs_lt]
      constructor
      · linarith [Int.sub_one_lt_floor v]
      · linarith [Int.floor_le v]
    · rw [abs_lt]
      constructor
      · linarith [Int.le_ceil v]
      · linarith [Int.ceil_lt_add_one v]

/-- Witness for `paste_origin_semantics` at a concrete nonnegative origin. -/
theorem paste_origin_semantics_witness :
    paste_x 512 (-1/2) 4 = ⌊((512 : ℤ) : ℚ) + (-1/2) - ((4 / 2 : ℕ) : ℚ)⌋ :=
  (paste_origin_semantics 512 (-1/2) 4).1 (by norm_num)

/-- On nonnegative inputs Python `int()` is the floor. -/
lemma pyInt_of_nonneg (q : ℚ) (h : 0 ≤ q) : pyInt q = ⌊q⌋ := if_pos h

/-- Core rounding bound: clamped floored scaling by `1 / a` with `a > 1`
stays within one unit of exact scaling of the clamped floored input. -/
lemma maxFloor_div_close (t a : ℚ) (ht : 0 ≤ t) (ha : 1 < a) :
    |((max 1 ⌊t / a⌋ : ℤ) : ℚ) - ((max 1 ⌊t⌋ : ℤ) : ℚ) / a| ≤ 1 := by
  have ha0 : 0 < a := lt_trans one_pos ha
  rcases le_or_lt 1 t with h1t | h1t
  · have hfm : (1 : ℤ) ≤ ⌊t⌋ := Int.le_floor.mpr (by exact_mod_cast h1t)
    have hm : max 1 ⌊t⌋ = ⌊t⌋ := max_eq_right hfm
    have hp1 : ((⌊t⌋ : ℤ) : ℚ) ≤ t := Int.floor_le t
    have hp2 : t - 1 < ((⌊t⌋ : ℤ) : ℚ) := Int.sub_one_lt_floor t
    have hdiv1 : ((⌊t⌋ : ℤ) : ℚ) / a ≤ t / a :=
      div_le_div_of_nonneg_right hp1 ha0.le
    have hdiv2 : t / a - 1 < ((⌊t⌋ : ℤ) : ℚ) / a := by
      have h3 : (t - 1) / a < ((⌊t⌋ : ℤ) : ℚ) / a :=
        div_lt_div_of_pos_right hp2 ha0
      have h4 : (t - 1) / a = t / a - 1 / a := by ring
      have h5 : 1 / a < 1 := by rw [div_lt_one ha0]; exact ha
      have h6 : (0 : ℚ) < 1 / a := by positivity
      linarith
    rcases le_or_lt 1 (t / a) with h1u | h1u
    · have hfn : (1 : ℤ) ≤ ⌊t / a⌋ := Int.le_floor.mpr (by exact_mod_cast h1u)
      have hn : max 1 ⌊t / a⌋ = ⌊t / a⌋ := max_eq_right hfn
      have hq1 : ((⌊t / a⌋ : ℤ) : ℚ) ≤ t / a := Int.floor_le _
      have hq2 : t / a - 1 < ((⌊t / a⌋ : ℤ) : ℚ) := Int.sub_one_lt_floor _
      rw [hm, hn, abs_le]
      constructor <;> linarith
    · have hfn : ⌊t / a⌋ < 1 := by
        rw [Int.floor_lt]
        exact_mod_cast h1u
      have hn : max 1 ⌊t / a⌋ = 1 := max_eq_left (by omega)
      have hnn : (0 : ℚ) ≤ ((⌊t⌋ : ℤ) : ℚ) / a := by
        apply div_nonneg _ ha0.le
        exact_mod_cast le_trans zero_le_one hfm
      rw [hm, hn, abs_le]
      push_cast
      constructor <;> linarith
  · have hu1 : t / a < 1 := by
      have h2 : t / a ≤ t := by
        rw [div_le_iff₀ ha0]
        nlinarith
      linarith
    have hu0 : (0 : ℚ) ≤ t / a := div_nonneg ht ha0.le
    have hm : max 1 ⌊t⌋ = 1 := max_eq_left (by
      have h2 : ⌊t⌋ < 1 := by rw [Int.floor_lt]; exact_mod_cast h1t
      omega)
    have hn : max 1 ⌊t / a⌋ = 1 := max_eq_left (by
      have h2 : ⌊t / a⌋ < 1 := by rw [Int.floor_lt]; exact_mod_cast hu1
      omega)
    have h5 : 1 / a < 1 := by rw [div_lt_one ha0]; exact ha
    have h6 : (0 : ℚ) < 1 / a := by positivity
    rw [hm, hn, abs_le]
    push_cast
    constructor <;> linarith

/-- C7: for a source image with `W ≠ H`, the stamp dimensions come from the
`2 * radius × 2 * radius` target box by shrinking exactly one dimension
(the height becomes `width / ar` when `ar = W / H > 1`, otherwise the width
becomes `height * ar`), and the resulting integer pair stays within one pixel
of the exact aspect-matching value. -/
theorem aspect_preserved (W H : ℕ) (radius : ℚ) (hW : 1 ≤ W) (hH : 1 ≤ H)
    (hne : W ≠ H) (hr : 0 ≤ radius) (nw nh : ℤ)
    (hd : itemDims W H radius = some (nw, nh)) :
    (1 < (W : ℚ) / H →
      nw = max 1 ⌊2 * radius⌋ ∧ nh = max 1 ⌊2 * radius / ((W : ℚ) / H)⌋ ∧
      |(nh : ℚ) - (nw : ℚ) / ((W : ℚ) / H)| ≤ 1) ∧
    ((W : ℚ) / H ≤ 1 →
      nh = max 1 ⌊2 * radius⌋ ∧ nw = max 1 ⌊2 * radius * ((W : ℚ) / H)⌋ ∧
      |(nw : ℚ) - (nh : ℚ) * ((W : ℚ) / H)| ≤ 1) := by
  have hH0 : H ≠ 0 := by omega
  have hHq : (0 : ℚ) < (H : ℚ) := by exact_mod_cast Nat.pos_of_ne_zero hH0
  have hWq : (0 : ℚ) < (W : ℚ) := by exact_mod_cast (by omega : 0 < W)
  have har0 : (0 : ℚ) < (W : ℚ) / H := div_pos hWq hHq
  have ht : (0 : ℚ) ≤ 2 * radius := by linarith
  simp only [itemDims, hH0, if_false, ite_false, Option.some.injEq,
    Prod.mk.injEq] at hd
  rcases lt_or_le 1 ((W : ℚ) / H) with har | har
  · rw [if_pos har] at hd
    refine ⟨fun _ => ?_, fun h => absurd h (not_le.mpr har)⟩
    obtain ⟨h1, h2⟩ := hd
    refine ⟨?_, ?_, ?_⟩
    · rw [← h1, pyInt_of_nonneg _ ht]
    · rw [← h2, pyInt_of_nonneg _ (div_nonneg ht har0.le)]
    · rw [← h1, ← h2, pyInt_of_nonneg _ ht,
        pyInt_of_nonneg _ (div_nonneg ht har0.le)]
      exact maxFloor_div_close (2 * radius) ((W : ℚ) / H) ht har
  · rw [if_neg (not_lt.mpr har)] at hd
    refine ⟨fun h => absurd h (not_lt.mpr har), fun _ => ?_⟩
    obtain ⟨h1, h2⟩ := hd
    have har_ne : (W : ℚ) / H ≠ 1 := by
      intro h
      apply hne
      have hWH : (W : ℚ) = H := by
        field_simp at h
        exact_mod_cast h
      exact_mod_cast hWH
    have harlt : (W : ℚ) / H < 1 := lt_of_le_of_ne har har_ne
    have hainv : 1 < ((W : ℚ) / H)⁻¹ := one_lt_inv₀ har0 |>.mpr harlt
    have hmain := maxFloor_div_close (2 * radius) ((W : ℚ) / H)⁻¹ ht hainv
    have e1 : ∀ x : ℚ, x / ((W : ℚ) / H)⁻¹ = x * ((W : ℚ) / H) := fun x => by
      rw [div_eq_mul_inv, inv_inv]
    rw [e1, e1] at hmain
    refine ⟨?_, ?_, ?_⟩
    · rw [← h2, pyInt_of_nonneg _ ht]
    · rw [← h1, pyInt_of_nonneg _ (mul_nonneg ht har0.le)]
    · rw [← h1, ← h2, pyInt_of_nonneg _ ht,
        pyInt_of_nonneg _ (mul_nonneg ht har0.le)]
      exact hmain

/-- Witness for `aspect_preserved`: a 200 × 100 source, radius 5. -/
theorem aspect_preserved_witness :
    (1 < (200 : ℚ) / 100 →
      (10 : ℤ) = max 1 ⌊2 * (5 : ℚ)⌋ ∧
      (5 : ℤ) = max 1 ⌊2 * (5 : ℚ) / ((200 : ℚ) / 100)⌋ ∧
      |((5 : ℤ) : ℚ) - ((10 : ℤ) : ℚ) / ((200 : ℚ) / 100)| ≤ 1) ∧
    ((200 : ℚ) / 100 ≤ 1 →
      (5 : ℤ) = max 1 ⌊2 * (5 : ℚ)⌋ ∧
      (10 : ℤ) = max 1 ⌊2 * (5 : ℚ) * ((200 : ℚ) / 100)⌋ ∧
      |((10 : ℤ) : ℚ) - ((5 : ℤ) : ℚ) * ((200 : ℚ) / 100)| ≤ 1) :=
  aspect_preserved 200 100 5 (by norm_num) (by norm_num) (by norm_num)
    (by norm_num) 10 5 (by norm_num [itemDims, pyInt])

end SpiralArt
